import Mathlib

/-!
Verification development for the `laz` RPC client/server repository.

Rust `String` / `&str` values are modelled as Lean `String`, with every
modelled operation defined structurally through the underlying character
list (`String.data`), so that concrete instances evaluate.  Rust
`str::contains` is byte-substring search on UTF-8, which coincides with
character-infix search.  Rust `str::to_lowercase` is modelled by
`Char.toLower` character-wise (the source only applies it to ASCII
identifiers).  JSON documents (`serde_json::Value`) are modelled by the
inductive `Json`, with numbers carried as integers.
-/

namespace Laz

/-- Substring search on character lists: does the second list occur as a
contiguous run inside the first? -/

def containsAux : List Char → List Char → Bool
  | [], pat => pat.isEmpty
  | c :: t, pat => pat.isPrefixOf (c :: t) || containsAux t pat

/-- Model of Rust `hay.contains(pat)`. -/

def strContains (hay pat : String) : Bool := containsAux hay.data pat.data

/-- Model of Rust `s.replace('_', "-")` (each underscore becomes one
hyphen, everything else untouched). -/

def kebab (s : String) : String :=
  String.mk (s.data.map fun c => if c = '_' then '-' else c)

/-- Model of Rust `s.to_lowercase()` restricted to ASCII. -/

def lowerStr (s : String) : String := String.mk (s.data.map Char.toLower)

/-! ## Endpoint resolution

Two implementations exist in the repository:

* `find_endpoint_for_function` in `laz_client/src/client/mod.rs`
  (runtime dispatcher): scans the discovered endpoint list in order,
  testing three substring conditions and three exact route patterns per
  endpoint, then a two-pattern fallback, else `None`.
* `find_endpoint_codegen` models `find_endpoint_for_function` in
  `laz_client_macros/codegen_shared.rs` (code generator): iterates the
  keys of a `HashMap<String, Vec<String>>` (iteration order is
  unspecified and varies between runs, so the key order is an explicit
  parameter here), testing only two substring conditions, then three
  exact patterns, then falls back to an arbitrary (first-iterated) key.
-/

/-- Model of the `EndpointDiscovery` struct of `laz_client`. -/

structure EndpointDiscovery where
  uri : String
  methods : List String
deriving DecidableEq

/-- Combined substring test of the runtime resolver: the URI contains the
raw function name, or its kebab-cased form, or its lower-cased form. -/

def subTest (fname uri : String) : Bool :=
  strContains uri fname || strContains uri (kebab fname)
    || strContains uri (lowerStr fname)

/-- Exact route patterns tried inside the runtime resolver's scan loop
(`/api/{kebab}`, `/api/auth/{kebab}`, `/auth/{kebab}`). -/

def clientPatterns (fname : String) : List String :=
  [ "/api/" ++ kebab fname
  , "/api/auth/" ++ kebab fname
  , "/auth/" ++ kebab fname ]

/-- Fallback patterns of the runtime resolver (only two of the three). -/

def fallbackPatterns (fname : String) : List String :=
  [ "/api/" ++ kebab fname
  , "/api/auth/" ++ kebab fname ]

/-- Scan loop of `LocoClient::find_endpoint_for_function`: first endpoint
whose URI passes `subTest` or equals one of the in-loop patterns. -/

def scanLoop (fname : String) : List EndpointDiscovery → Option String
  | [] => none
  | e :: es =>
    if subTest fname e.uri then some e.uri
    else if (clientPatterns fname).any (fun p => e.uri = p) then some e.uri
    else scanLoop fname es

/-- Model of `LocoClient::find_endpoint_for_function`
(`laz_client/src/client/mod.rs`): the scan loop, then the two-pattern
fallback over the whole endpoint list, else `none`. -/

def find_endpoint_for_function (fname : String)
    (endpoints : List EndpointDiscovery) : Option String :=
  match scanLoop fname endpoints with
  | some u => some u
  | none =>
    match (fallbackPatterns fname).find?
        (fun p => endpoints.any (fun e => e.uri = p)) with
    | some p => some p
    | none => none

/-- Model of `find_endpoint_for_function` in
`laz_client_macros/codegen_shared.rs`.  `uriKeys` is the key list of the
endpoint `HashMap` in its (unspecified) iteration order. -/

def find_endpoint_codegen (fname : String) (uriKeys : List String) :
    Option String :=
  match uriKeys.find?
      (fun uri => strContains uri fname || strContains uri (kebab fname)) with
  | some uri => some uri
  | none =>
    match (clientPatterns fname).find? (fun p => uriKeys.contains p) with
    | some p => some p
    | none => uriKeys.head?

/-- Resolver as described by the specification's words (section 4.2,
steps 1 and 2): scan the list in order for the first URI passing one of
the three substring tests; if none, return the first of the three exact
candidate paths that equals some listed URI; otherwise no match. -/

def specResolve (fname : String) (endpoints : List EndpointDiscovery) :
    Option String :=
  match endpoints.find? (fun e => subTest fname e.uri) with
  | some e => some e.uri
  | none =>
    (clientPatterns fname).find? (fun c => endpoints.any (fun e => e.uri = c))

/-! ## JSON values

Model of `serde_json::Value`.  Objects are association lists in
insertion order; numbers are carried as integers (the metadata documents
and parameters the claims exercise contain only integral numbers). -/

/-- JSON value model. -/

inductive Json where
  | null
  | bool (b : Bool)
  | num (n : Int)
  | str (s : String)
  | arr (elems : List Json)
  | obj (entries : List (String × Json))

/-- Model of `Value::as_str`. -/

def Json.asStr : Json → Option String
  | .str s => some s
  | _ => none

/-- Model of `Value::as_bool`. -/

def Json.asBool : Json → Option Bool
  | .bool b => some b
  | _ => none

/-- Model of `Value::as_array`. -/

def Json.asArray : Json → Option (List Json)
  | .arr xs => some xs
  | _ => none

/-- Discriminator for JSON objects (`Value::Object`). -/

def Json.isObj : Json → Bool
  | .obj _ => true
  | _ => false

/-- Model of `value[key]` (`Index<&str>` on `serde_json::Value`): the
value under `key` of an object, `Null` for a missing key or a
non-object. -/

def Json.index (j : Json) (k : String) : Json :=
  match j with
  | .obj kvs =>
    match kvs.find? (fun kv => kv.1 = k) with
    | some kv => kv.2
    | none => .null
  | _ => .null

/-- Model of `value.get(key)`: `some` value under `key` of an object,
`none` for a missing key or a non-object. -/

def Json.get? (j : Json) (k : String) : Option Json :=
  match j with
  | .obj kvs => (kvs.find? (fun kv => kv.1 = k)).map (fun kv => kv.2)
  | _ => none

/-- Opening brace character (written by code point to keep it out of
string literals). -/

def lbrace : Char := Char.ofNat 123

/-- Closing brace character. -/

def rbrace : Char := Char.ofNat 125

/-- Hexadecimal digit characters used by `serde_json` escapes. -/

def hexDigit (n : Nat) : Char :=
  if n < 10 then Char.ofNat (48 + n) else Char.ofNat (87 + n)

/-- The escape sequence `serde_json` emits for one character inside a
JSON string: `\"`, `\\`, the short control escapes, `\u00XX` for the
remaining control characters, and the character itself otherwise. -/

def escapeChar (c : Char) : List Char :=
  if c = '"' then ['\\', '"']
  else if c = '\\' then ['\\', '\\']
  else if c = '\x08' then ['\\', 'b']
  else if c = '\x09' then ['\\', 't']
  else if c = '\x0a' then ['\\', 'n']
  else if c = '\x0c' then ['\\', 'f']
  else if c = '\x0d' then ['\\', 'r']
  else if c.toNat < 32 then
    ['\\', 'u', '0', '0', hexDigit (c.toNat / 16), hexDigit (c.toNat % 16)]
  else [c]

/-- A string rendered as a quoted, escaped JSON string literal. -/

def quoteStr (s : String) : List Char :=
  '"' :: (s.data.map escapeChar).flatten ++ ['"']

mutual

/-- Compact JSON text of a value, as characters: the model of
`serde_json`'s `Display` / `to_string` for `Value`. -/
def Json.renderChars : Json → List Char
  | .null => "null".data
  | .bool b => (if b then "true" else "false").data
  | .num n => (toString n).data
  | .str s => quoteStr s
  | .arr xs => '[' :: Json.renderArr xs ++ [']']
  | .obj kvs => lbrace :: Json.renderObj kvs ++ [rbrace]

/-- Comma-separated renderings of array elements. -/
def Json.renderArr : List Json → List Char
  | [] => []
  | x :: t =>
    Json.renderChars x ++ (if t.isEmpty then [] else [',']) ++ Json.renderArr t

/-- Comma-separated `"key":value` renderings of object entries. -/
def Json.renderObj : List (String × Json) → List Char
  | [] => []
  | (k, v) :: t =>
    quoteStr k ++ ':' :: Json.renderChars v
      ++ (if t.isEmpty then [] else [',']) ++ Json.renderObj t

end

/-- Compact JSON text of a value, as a string. -/

def Json.render (j : Json) : String := String.mk j.renderChars

/-- Model of `stringify_value` (`laz_client/src/client/mod.rs`): strings
unquoted, numbers and booleans via `to_string`, everything else via its
JSON text. -/

def stringify_value : Json → String
  | .str s => s
  | .num n => toString n
  | .bool b => if b then "true" else "false"
  | other => other.render

/-! ## The type-schema model (`laz_types/src/lib.rs`)

`TypeSchema` and its companion structs (`StructSchema`, `FieldSchema`,
`EnumSchema`, `VariantSchema`) are mutually recursive in the source via
`Box`/`Vec`/`Option`; they are modelled as a mutual inductive here.  The
wire format is serde's adjacently tagged encoding
(`#[serde(tag = "kind", content = "value")]`), with struct fields
serialized in declaration order. -/

mutual

/-- Model of the `TypeSchema` enum. -/
inductive TypeSchema where
  | Primitive (name : String)
  | Struct (s : StructSchema)
  | Enum (e : EnumSchema)
  | Container (container_type : String) (inner_type : TypeSchema)
  | Tuple (elems : List TypeSchema)
  | Opaque (name : String)

/-- Model of the `StructSchema` struct. -/
inductive StructSchema where
  | mk (type_name : String) (fields : List FieldSchema)

/-- Model of the `FieldSchema` struct. -/
inductive FieldSchema where
  | mk (field_name : String) (field_type : TypeSchema) (optional : Bool)

/-- Model of the `EnumSchema` struct. -/
inductive EnumSchema where
  | mk (type_name : String) (variants : List VariantSchema)

/-- Model of the `VariantSchema` struct. -/
inductive VariantSchema where
  | mk (variant_name : String) (inner_schema : Option TypeSchema)

end

mutual

/-- Serde serialization of a `TypeSchema` to the tagged wire format:
tag field `"kind"`, payload field `"value"`. -/
def encodeSchema : TypeSchema → Json
  | .Primitive name =>
    .obj [("kind", .str "Primitive"), ("value", .str name)]
  | .Struct s =>
    .obj [("kind", .str "Struct"), ("value", encodeStruct s)]
  | .Enum e =>
    .obj [("kind", .str "Enum"), ("value", encodeEnum e)]
  | .Container ct inner =>
    .obj [("kind", .str "Container"),
      ("value", .obj [("container_type", .str ct),
        ("inner_type", encodeSchema inner)])]
  | .Tuple elems =>
    .obj [("kind", .str "Tuple"), ("value", .arr (encodeSchemaList elems))]
  | .Opaque name =>
    .obj [("kind", .str "Opaque"), ("value", .str name)]

/-- Serde serialization of a `StructSchema`. -/
def encodeStruct : StructSchema → Json
  | .mk tn fs =>
    .obj [("type_name", .str tn), ("fields", .arr (encodeFieldList fs))]

/-- Serde serialization of a `FieldSchema`. -/
def encodeField : FieldSchema → Json
  | .mk fn ft opt =>
    .obj [("field_name", .str fn), ("field_type", encodeSchema ft),
      ("optional", .bool opt)]

/-- Serde serialization of a list of fields. -/
def encodeFieldList : List FieldSchema → List Json
  | [] => []
  | f :: t => encodeField f :: encodeFieldList t

/-- Serde serialization of an `EnumSchema`. -/
def encodeEnum : EnumSchema → Json
  | .mk tn vs =>
    .obj [("type_name", .str tn), ("variants", .arr (encodeVariantList vs))]

/-- Serde serialization of a `VariantSchema` (an absent inner schema
serializes as `null`). -/
def encodeVariant : VariantSchema → Json
  | .mk vn none => .obj [("variant_name", .str vn), ("inner_schema", .null)]
  | .mk vn (some s) =>
    .obj [("variant_name", .str vn), ("inner_schema", encodeSchema s)]

/-- Serde serialization of a list of variants. -/
def encodeVariantList : List VariantSchema → List Json
  | [] => []
  | v :: t => encodeVariant v :: encodeVariantList t

/-- Serde serialization of a list of schemas (a `Vec<Box<TypeSchema>>`). -/
def encodeSchemaList : List TypeSchema → List Json
  | [] => []
  | x :: t => encodeSchema x :: encodeSchemaList t

end

mutual

/-- Serde deserialization of the tagged wire format back into a
`TypeSchema` (the model fixes the serializer's field order; serde itself
also accepts permuted fields, which encoded values never exhibit). -/
def decodeSchema : Json → Option TypeSchema
  | .obj [(k1, .str kind), (k2, v)] =>
    if k1 = "kind" ∧ k2 = "value" then
      match kind with
      | "Primitive" => v.asStr.map .Primitive
      | "Struct" => (decodeStruct v).map .Struct
      | "Enum" => (decodeEnum v).map .Enum
      | "Container" =>
        match v with
        | .obj [(a, .str ct), (b, inner)] =>
          if a = "container_type" ∧ b = "inner_type" then
            (decodeSchema inner).map (.Container ct)
          else none
        | _ => none
      | "Tuple" =>
        match v with
        | .arr xs => (decodeSchemaList xs).map .Tuple
        | _ => none
      | "Opaque" => v.asStr.map .Opaque
      | _ => none
    else none
  | _ => none

/-- Serde deserialization of a `StructSchema` payload. -/
def decodeStruct : Json → Option StructSchema
  | .obj [(a, .str tn), (b, .arr fs)] =>
    if a = "type_name" ∧ b = "fields" then
      (decodeFieldList fs).map (.mk tn)
    else none
  | _ => none

/-- Serde deserialization of a `FieldSchema`. -/
def decodeField : Json → Option FieldSchema
  | .obj [(a, .str fn), (b, ft), (c, .bool opt)] =>
    if a = "field_name" ∧ b = "field_type" ∧ c = "optional" then
      (decodeSchema ft).map (fun s => .mk fn s opt)
    else none
  | _ => none

/-- Serde deserialization of a field list. -/
def decodeFieldList : List Json → Option (List FieldSchema)
  | [] => some []
  | f :: t =>
    (decodeField f).bind fun x => (decodeFieldList t).map (fun xs => x :: xs)

/-- Serde deserialization of an `EnumSchema` payload. -/
def decodeEnum : Json → Option EnumSchema
  | .obj [(a, .str tn), (b, .arr vs)] =>
    if a = "type_name" ∧ b = "variants" then
      (decodeVariantList vs).map (.mk tn)
    else none
  | _ => none

/-- Serde deserialization of a `VariantSchema` (`null` inner schema means
`None`). -/
def decodeVariant : Json → Option VariantSchema
  | .obj [(a, .str vn), (b, inner)] =>
    if a = "variant_name" ∧ b = "inner_schema" then
      match inner with
      | .null => some (.mk vn none)
      | j => (decodeSchema j).map (fun s => .mk vn (some s))
    else none
  | _ => none

/-- Serde deserialization of a variant list. -/
def decodeVariantList : List Json → Option (List VariantSchema)
  | [] => some []
  | v :: t =>
    (decodeVariant v).bind fun x => (decodeVariantList t).map (fun xs => x :: xs)

/-- Serde deserialization of a schema list. -/
def decodeSchemaList : List Json → Option (List TypeSchema)
  | [] => some []
  | x :: t =>
    (decodeSchema x).bind fun y => (decodeSchemaList t).map (fun ys => y :: ys)

end

/-! ## The runtime dispatcher (`laz_client/src/client/mod.rs`)

`LocoClient` state, metadata fetching/parsing, and the pure
request-building / response-handling cores of `call_function` and
`call_endpoint`.  Network effects are factored out: the outcome of the
metadata round-trip is a `FetchOutcome` parameter (serde's parse of the
body text is represented by its result), and `call_endpoint` is split
into the request it builds and the handling of a given response. -/

/-- Model of the `RpcClientError` enum.  Each variant carries its
formatted display text's variable part. -/

inductive RpcClientError where
  | RequestError (msg : String)
  | JsonError (msg : String)
  | FunctionNotFound (msg : String)
  | InvalidParameter (msg : String)
  | ServerError (msg : String)
deriving DecidableEq

/-- Boolean discriminator for the `FunctionNotFound` variant. -/

def RpcClientError.isFunctionNotFound : RpcClientError → Bool
  | .FunctionNotFound _ => true
  | _ => false

/-- Boolean discriminator for the `JsonError` variant. -/

def RpcClientError.isJsonError : RpcClientError → Bool
  | .JsonError _ => true
  | _ => false

/-- Boolean discriminator for the `ServerError` variant. -/

def RpcClientError.isServerError : RpcClientError → Bool
  | .ServerError _ => true
  | _ => false

/-- Model of the `ServerAddr` struct of `laz_client` (`port: usize`). -/

structure ServerAddr where
  ip : String
  port : Nat
deriving DecidableEq

/-- Model of `ServerAddr::base_url`. -/

def base_url (a : ServerAddr) : String :=
  "http://" ++ a.ip ++ ":" ++ toString a.port

/-- Model of the `RpcFunction` struct. -/

structure RpcFunction where
  name : String
  is_mutation : Bool
  is_async : Bool
  input_type_name : Option String
  output_type_name : String
  params : List Json
  input_schema_json : Option String
  output_schema_json : Option String

/-- Model of the mutable `LocoClient` state (the `reqwest::Client` handle
carries no modelled state).  The function `HashMap` is an association
list with unique keys. -/

structure ClientState where
  server_addr : ServerAddr
  functions : List (String × RpcFunction)
  endpoints_discovery : List EndpointDiscovery

/-- Model of `HashMap::insert`: replace the value under an existing key,
otherwise append the new binding. -/

def insertFn : List (String × RpcFunction) → String → RpcFunction →
    List (String × RpcFunction)
  | [], k, v => [(k, v)]
  | (k', v') :: t, k, v =>
    if k' = k then (k, v) :: t else (k', v') :: insertFn t k v

/-- Model of `HashMap::get` on the function map. -/

def lookupFn (m : List (String × RpcFunction)) (k : String) :
    Option RpcFunction :=
  (m.find? (fun kv => kv.1 = k)).map (fun kv => kv.2)

/-- Model of the deserialized `MetadataResponse` struct. -/

structure MetadataResponse where
  total_functions : Nat
  functions : List Json
  endpoints_discovery : List Json
  total_endpoints : Nat

/-- Outcome of the metadata HTTP round-trip, factoring out the network
and serde: a connection failure, or a response with its status and the
result of parsing its body as a `MetadataResponse` (`none` models
malformed JSON or a body not matching the four required fields). -/

inductive FetchOutcome where
  | networkError
  | httpResponse (status : Nat) (parsed : Option MetadataResponse)

/-- Model of `reqwest::StatusCode::is_success` (2xx). -/

def is_success (status : Nat) : Bool := 200 ≤ status && status ≤ 299

/-- Parsing of one function entry inside `fetch_metadata`: required
string fields `function_name` and `output_type_name` (error on a missing
or non-string value), boolean flags defaulting to `false` on a missing
or non-boolean value, optional string fields, and the raw `params`
value stored as-is. -/

def parseFunction (fv : Json) : Except RpcClientError RpcFunction :=
  match (fv.index "function_name").asStr with
  | none => .error (.InvalidParameter "Missing function_name")
  | some function_name =>
    let is_mutation := ((fv.index "is_mutation").asBool).getD false
    let is_async := ((fv.index "is_async").asBool).getD false
    let input_type_name := (fv.index "input_type_name").asStr
    match (fv.index "output_type_name").asStr with
    | none => .error (.InvalidParameter "Missing output_type_name")
    | some output_type_name =>
      .ok { name := function_name
          , is_mutation
          , is_async
          , input_type_name
          , output_type_name
          , params := [fv.index "params"]
          , input_schema_json := (fv.index "input_schema_json").asStr
          , output_schema_json := (fv.index "output_schema_json").asStr }

/-- The function loop of `fetch_metadata`: insert each parsed function
into the map, stopping (state kept) at the first invalid entry. -/

def processFunctions (m : List (String × RpcFunction)) :
    List Json → List (String × RpcFunction) × Except RpcClientError Unit
  | [] => (m, .ok ())
  | fv :: t =>
    match parseFunction fv with
    | .error e => (m, .error e)
    | .ok f => processFunctions (insertFn m f.name f) t

/-- Parsing of one endpoint entry inside `fetch_metadata`: required
string `uri` and required array `methods` (non-string members are
silently dropped). -/

def parseEndpoint (ev : Json) : Except RpcClientError EndpointDiscovery :=
  match (ev.index "uri").asStr with
  | none => .error (.InvalidParameter "Missing endpoint uri")
  | some uri =>
    match (ev.index "methods").asArray with
    | none => .error (.InvalidParameter "Missing endpoint methods")
    | some arr => .ok ⟨uri, arr.filterMap Json.asStr⟩

/-- The endpoint loop of `fetch_metadata`. -/

def processEndpoints (es : List EndpointDiscovery) :
    List Json → List EndpointDiscovery × Except RpcClientError Unit
  | [] => (es, .ok ())
  | ev :: t =>
    match parseEndpoint ev with
    | .error e => (es, .error e)
    | .ok ep => processEndpoints (es ++ [ep]) t

/-- Model of `LocoClient::fetch_metadata` given the round-trip's outcome:
network failure and non-2xx status abort before parsing; a body that
does not deserialize aborts with a `ServerError` (the serde diagnostic
text appended in the source is elided); otherwise the two entry loops
run, mutating the state until the first invalid entry. -/

def fetch_metadata (st : ClientState) (outcome : FetchOutcome) :
    ClientState × Except RpcClientError Unit :=
  match outcome with
  | .networkError => (st, .error (.RequestError "HTTP request failed"))
  | .httpResponse status parsed =>
    if is_success status then
      match parsed with
      | none => (st, .error (.ServerError "Failed to parse metadata JSON"))
      | some m =>
        match processFunctions st.functions m.functions with
        | (fns, .error e) => ({ st with functions := fns }, .error e)
        | (fns, .ok _) =>
          match processEndpoints st.endpoints_discovery m.endpoints_discovery with
          | (eps, r) =>
            ({ st with functions := fns, endpoints_discovery := eps }, r)
    else
      (st, .error (.ServerError ("Failed to fetch metadata: HTTP "
        ++ toString status)))

/-- Model of `LocoClient::init`: build the empty client, run
`fetch_metadata`, discard any failure (keeping whatever state the fetch
left), and return the client — the `Ok` constructor is the only exit. -/

def init (addr : ServerAddr) (outcome : FetchOutcome) :
    Except RpcClientError ClientState :=
  .ok (fetch_metadata ⟨addr, [], []⟩ outcome).1

/-- Model of `LocoClient::get_function_names`. -/

def get_function_names (st : ClientState) : List String :=
  st.functions.map Prod.fst

/-- Model of `LocoClient::get_function_metadata`. -/

def get_function_metadata (st : ClientState) (fname : String) :
    Option RpcFunction :=
  lookupFn st.functions fname

/-- The pure core of `LocoClient::call_function`: either the error it
returns before any request is made, or the `(endpoint, is_mutation,
params)` triple it delegates to `call_endpoint`. -/

def call_function_route (st : ClientState) (fname : String)
    (params : Option Json) :
    Except RpcClientError (String × Bool × Option Json) :=
  match lookupFn st.functions fname with
  | none => .error (.FunctionNotFound fname)
  | some f =>
    match find_endpoint_for_function fname st.endpoints_discovery with
    | none =>
      .error (.FunctionNotFound ("No endpoint found for function: " ++ fname))
    | some endpoint => .ok (endpoint, f.is_mutation, params)

/-- HTTP request methods used by the dispatcher. -/

inductive Method where
  | get
  | post
deriving DecidableEq

/-- The request `call_endpoint` hands to `reqwest`: method, URL, query
pairs (reads) and JSON body (writes). -/

structure HttpRequest where
  method : Method
  url : String
  query : List (String × String)
  body : Option Json

/-- Request-building half of `LocoClient::call_endpoint`: the URL is the
base URL plus the fixed `/api` prefix plus the endpoint path; a mutation
POSTs the optional params as JSON body; a read GETs, flattening a JSON
object's top-level entries through `stringify_value` into query pairs
(added only when non-empty) and ignoring non-object params. -/

def call_endpoint_request (addr : ServerAddr) (endpoint : String)
    (is_mutation : Bool) (params : Option Json) : HttpRequest :=
  let url := base_url addr ++ ("/api" ++ endpoint)
  if is_mutation then
    { method := .post, url, query := [], body := params }
  else
    let query_pairs :=
      match params with
      | some (.obj kvs) => kvs.map (fun kv => (kv.1, stringify_value kv.2))
      | _ => []
    { method := .get, url
    , query := if query_pairs.isEmpty then [] else query_pairs
    , body := none }

/-- Response-handling half of `LocoClient::call_endpoint`, given the
response status, its body text, and the result of parsing the body as
JSON.  A non-2xx status produces `ServerError` with the endpoint, status
and body text (the status renders here as its code; the source's
`Display` adds the canonical reason after it).  A 2xx body is returned
as parsed JSON; if parsing fails, `reqwest`'s decode error is converted
through `From<reqwest::Error>`, which lands in `RequestError`. -/

def call_endpoint_response (endpoint : String) (status : Nat)
    (bodyText : String) (bodyJson : Option Json) :
    Except RpcClientError Json :=
  if is_success status then
    match bodyJson with
    | some v => .ok v
    | none => .error (.RequestError "error decoding response body")
  else
    .error (.ServerError ("Endpoint " ++ endpoint ++ " failed with status "
      ++ toString status ++ ": " ++ bodyText))

/-! ## Code generation (`laz_client_macros/codegen_shared.rs`)

The type-definition generator: Rust source text is modelled as the
strings the generator concatenates (braces are built from their code
points to keep them out of literals).  `serde_json::from_str` applied to
embedded schema strings is factored out: `generate_type_from_schema`
takes the parse result (`none` covering both an absent schema string
and one that fails to parse, which the source treats identically), and
the metadata-wide collection takes the parse function as an explicit
parameter. -/

/-- The derive attribute line every generated type starts with. -/

def derive_header : String :=
  "#[derive(Debug, Clone, serde::Serialize, serde::Deserialize)]\n"

/-- Opening brace as a string. -/

def lbraceS : String := String.mk [lbrace]

/-- Closing brace as a string. -/

def rbraceS : String := String.mk [rbrace]

/-- Model of `generate_basic_type`: a newtype over `serde_json::Value`. -/

def generate_basic_type (name : String) : String :=
  derive_header ++ "pub struct " ++ name ++ "(pub serde_json::Value);\n"

/-- The newtype definition text `pub struct {name}(pub {inner});`. -/

def newtypeText (name inner : String) : String :=
  derive_header ++ "pub struct " ++ name ++ "(pub " ++ inner ++ ");\n"

/-- Model of `generate_primitive_type_from_schema`: empty for a value
equal to the requested name, a newtype for the built-ins `String`,
`i32`, `i64`, `bool`, and the untyped wrapper otherwise (including
`f32`/`f64`, which have no arm in the source match). -/

def generate_primitive_type_from_schema (name : String) (schema : Json) :
    String :=
  match (schema.get? "value").bind Json.asStr with
  | some v =>
    if v = name then ""
    else if v = "String" then
      if name = "String" then "" else newtypeText name "String"
    else if v = "i32" then newtypeText name "i32"
    else if v = "i64" then newtypeText name "i64"
    else if v = "bool" then newtypeText name "bool"
    else generate_basic_type name
  | none => generate_basic_type name

/-- The built-in table of `get_rust_type_from_schema` for primitive
schema values. -/

def rustPrimName (s : String) : String :=
  if s = "String" then "String"
  else if s = "i32" then "i32"
  else if s = "i64" then "i64"
  else if s = "bool" then "bool"
  else if s = "f32" then "f32"
  else if s = "f64" then "f64"
  else "serde_json::Value"

/-- Model of `get_rust_type_from_schema`: the Rust type text for a field
from its schema value (note the source reads `container_type` and
`inner_type` from the top level of the field's schema value, not from
under `value`). -/

def get_rust_type_from_schema (fti : Json) : String :=
  match (fti.get? "kind").bind Json.asStr with
  | some "Primitive" =>
    match (fti.get? "value").bind Json.asStr with
    | some s => rustPrimName s
    | none => "serde_json::Value"
  | some "Struct" =>
    match ((fti.get? "value").bind (fun v => v.get? "type_name")).bind
        Json.asStr with
    | some n => n
    | none => "serde_json::Value"
  | some "Container" =>
    match (fti.get? "container_type").bind Json.asStr with
    | some ct =>
      match h : fti.get? "inner_type" with
      | some inner =>
        if ct = "Vec" then "Vec<" ++ get_rust_type_from_schema inner ++ ">"
        else if ct = "Option" then
          "Option<" ++ get_rust_type_from_schema inner ++ ">"
        else "serde_json::Value"
      | none => "serde_json::Value"
    | none => "serde_json::Value"
  | _ => "serde_json::Value"
termination_by sizeOf fti
decreasing_by
  all_goals
    cases fti with
    | obj entries =>
      simp only [Json.get?, Option.map_eq_some'] at h
      obtain ⟨kv, hfind, hv⟩ := h
      have hmem := List.mem_of_find?_eq_some hfind
      have h1 : sizeOf kv < sizeOf entries := List.sizeOf_lt_of_mem hmem
      have h2 : sizeOf kv.2 ≤ sizeOf kv := by
        obtain ⟨a, b⟩ := kv
        simp only [Prod.mk.sizeOf_spec]
        omega
      subst hv
      simp only [Json.obj.sizeOf_spec]
      omega
    | null => exact Option.noConfusion h
    | bool b => exact Option.noConfusion h
    | num n => exact Option.noConfusion h
    | str s => exact Option.noConfusion h
    | arr xs => exact Option.noConfusion h

/-- Field lines of a generated struct (entries without a string
`field_name` or without a `field_type` are skipped). -/

def structFieldLines : List Json → String
  | [] => ""
  | field :: t =>
    (match (field.get? "field_name").bind Json.asStr,
        field.get? "field_type" with
     | some fn, some fti =>
       let ft := get_rust_type_from_schema fti
       let opt := ((field.get? "optional").bind Json.asBool).getD false
       if opt then "    pub " ++ fn ++ ": Option<" ++ ft ++ ">,\n"
       else "    pub " ++ fn ++ ": " ++ ft ++ ",\n"
     | _, _ => "")
      ++ structFieldLines t

/-- Model of `generate_struct_type_from_schema`. -/

def generate_struct_type_from_schema (name : String) (schema : Json) :
    String :=
  derive_header ++ "pub struct " ++ name ++ " " ++ lbraceS ++ "\n"
    ++ (match (schema.get? "value").bind
          (fun v => (v.get? "fields").bind Json.asArray) with
        | some fields => structFieldLines fields
        | none => "")
    ++ rbraceS ++ "\n"

/-- Variant lines of a generated enum (entries without a string
`variant_name` are skipped). -/

def enumVariantLines : List Json → String
  | [] => ""
  | v :: t =>
    (match (v.get? "variant_name").bind Json.asStr with
     | some vn => "    " ++ vn ++ ",\n"
     | none => "")
      ++ enumVariantLines t

/-- Model of `generate_enum_type_from_schema`. -/

def generate_enum_type_from_schema (name : String) (schema : Json) :
    String :=
  derive_header ++ "pub enum " ++ name ++ " " ++ lbraceS ++ "\n"
    ++ (match (schema.get? "value").bind
          (fun v => (v.get? "variants").bind Json.asArray) with
        | some variants => enumVariantLines variants
        | none => "")
    ++ rbraceS ++ "\n"

/-- The canonical built-in primitive names the generator refuses to
redefine. -/

def builtinNames : List String := ["String", "i32", "i64", "bool", "f32", "f64"]

/-- Model of `generate_type_from_schema`.  `schema` is the parse result
of the optional schema JSON string (`none` for an absent string or a
parse failure, treated identically by the source). -/

def generate_type_from_schema (type_name : String) (schema : Option Json) :
    String :=
  if type_name ∈ builtinNames then ""
  else
    match schema with
    | some schema_value =>
      match (schema_value.get? "kind").bind Json.asStr with
      | some "Struct" => generate_struct_type_from_schema type_name schema_value
      | some "Enum" => generate_enum_type_from_schema type_name schema_value
      | some "Primitive" =>
        generate_primitive_type_from_schema type_name schema_value
      | _ => generate_basic_type type_name
    | none => generate_basic_type type_name

/-- The guarded insertion of the type-collection loop: add a definition
under `name` when `name` is non-empty and not yet a key of the map
(`!x.is_empty() && !types.contains_key(x)` in the source). -/

def insertTypeIfNew (types : List (String × String)) (name text : String) :
    List (String × String) :=
  if name ≠ "" ∧ (types.find? (fun kv => kv.1 = name)).isNone then
    types ++ [(name, text)]
  else types

/-- One step of the type-collection loop of
`generate_dynamic_typed_client`: for a function entry with string
`function_name` and `output_type_name`, generate and insert a definition
for its non-empty input and output type names when the name is not
already a key of the accumulated map.  `parse` is `serde_json::from_str`
on the embedded schema strings. -/

def collectTypesStep (parse : String → Option Json)
    (types : List (String × String)) (func : Json) :
    List (String × String) :=
  match (func.index "function_name").asStr,
      (func.index "output_type_name").asStr with
  | some _, some output_type =>
    let types1 :=
      match (func.index "input_type_name").asStr with
      | some input_type =>
        insertTypeIfNew types input_type
          (generate_type_from_schema input_type
            (((func.index "input_schema_json").asStr).bind parse))
      | none => types
    insertTypeIfNew types1 output_type
      (generate_type_from_schema output_type
        (((func.index "output_schema_json").asStr).bind parse))
  | _, _ => types

/-- The whole type-collection loop over the metadata's function list. -/

def collectTypes (parse : String → Option Json) (funcs : List Json) :
    List (String × String) :=
  funcs.foldl (collectTypesStep parse) []

/-- Classification of fetch outcomes that fail before any metadata entry
is processed: network failure, non-2xx status, or a body that does not
deserialize as a `MetadataResponse`. -/

def earlyFailure : FetchOutcome → Bool
  | .networkError => true
  | .httpResponse status parsed => !(is_success status) || parsed.isNone

theorem isPrefixOf_self (l : List Char) : l.isPrefixOf l = true := by
  induction l with
  | nil => rfl
  | cons c t ih => simp [List.isPrefixOf, ih]

theorem containsAux_suffix (s t : List Char) : containsAux (s ++ t) t = true := by
  induction s with
  | nil =>
    cases t with
    | nil => rfl
    | cons c u => simp [containsAux, isPrefixOf_self]
  | cons c s ih => simp [containsAux, ih]

theorem strContains_suffix (s t : String) : strContains (s ++ t) t = true := by
  unfold strContains
  rw [String.data_append]
  exact containsAux_suffix s.data t.data

theorem subTest_of_append_kebab (fname s : String) :
    subTest fname (s ++ kebab fname) = true := by
  simp [subTest, strContains_suffix]

theorem subTest_of_mem_clientPatterns {fname u : String}
    (h : u ∈ clientPatterns fname) : subTest fname u = true := by
  simp only [clientPatterns, List.mem_cons, List.not_mem_nil, or_false] at h
  rcases h with h | h | h <;> subst h <;> exact subTest_of_append_kebab _ _

theorem scanLoop_eq_find (fname : String) (es : List EndpointDiscovery) :
    scanLoop fname es
      = (es.find? (fun e => subTest fname e.uri)).map (fun e => e.uri) := by
  induction es with
  | nil => rfl
  | cons e es ih =>
    by_cases hs : subTest fname e.uri
    · simp [scanLoop, List.find?, hs]
    · have hp : (clientPatterns fname).any (fun p => e.uri = p) = false := by
        by_contra hany
        rw [Bool.not_eq_false, List.any_eq_true] at hany
        obtain ⟨p, hp, hep⟩ := hany
        rw [decide_eq_true_iff] at hep
        exact hs (by rw [hep]; exact subTest_of_mem_clientPatterns hp)
      simp [scanLoop, List.find?, hs, hp, ih]

theorem find?_subTest_none_no_pattern {fname : String}
    {es : List EndpointDiscovery}
    (h : es.find? (fun e => subTest fname e.uri) = none)
    {c : String} (hc : c ∈ clientPatterns fname) :
    es.any (fun e => e.uri = c) = false := by
  by_contra hany
  rw [Bool.not_eq_false, List.any_eq_true] at hany
  obtain ⟨e, he, hec⟩ := hany
  rw [decide_eq_true_iff] at hec
  have := List.find?_eq_none.mp h e he
  exact this (by rw [hec]; exact subTest_of_mem_clientPatterns hc)

theorem find_endpoint_eq_specResolve (fname : String)
    (endpoints : List EndpointDiscovery) :
    find_endpoint_for_function fname endpoints = specResolve fname endpoints := by
  unfold find_endpoint_for_function specResolve
  rw [scanLoop_eq_find]
  cases hf : endpoints.find? (fun e => subTest fname e.uri) with
  | some e => simp
  | none =>
    simp only [Option.map_none]
    have hfallback : (fallbackPatterns fname).find?
        (fun p => endpoints.any (fun e => e.uri = p)) = none := by
      rw [List.find?_eq_none]
      intro p hp
      have hmem : p ∈ clientPatterns fname := by
        simp only [fallbackPatterns, List.mem_cons, List.not_mem_nil,
          or_false] at hp
        rcases hp with hp | hp <;> subst hp <;> simp [clientPatterns]
      simp [find?_subTest_none_no_pattern hf hmem]
    have hcand : (clientPatterns fname).find?
        (fun c => endpoints.any (fun e => e.uri = c)) = none := by
      rw [List.find?_eq_none]
      intro p hp
      simp [find?_subTest_none_no_pattern hf hp]
    rw [hfallback, hcand]
    rfl

/-- Claim C1 (counterexample): the claim asserts that when no substring
test and no exact candidate matches, the resolver "returns no match";
the code-generator's resolver (`codegen_shared.rs`) instead falls back
to the first key of the endpoint map.  With endpoints `["/api/other"]`
and function `"missing_fn"` the spec-described resolver returns `none`
while the codegen resolver returns `some "/api/other"`. -/
theorem C1_codegen_resolver_counterexample :
    find_endpoint_codegen "missing_fn" ["/api/other"] = some "/api/other"
      ∧ specResolve "missing_fn" [⟨"/api/other", []⟩] = none := by
  constructor <;> decide

/-- Claim C1 (amended): the runtime resolver
(`LocoClient::find_endpoint_for_function`) computes exactly the
spec-described resolution (first substring match in list order, then the
three exact candidates, else no match); and the codegen resolver never
returns "no match" on a nonempty endpoint map, falling back to an
arbitrary key instead. -/
theorem C1_resolver_amended :
    (∀ (fname : String) (endpoints : List EndpointDiscovery),
        find_endpoint_for_function fname endpoints
          = specResolve fname endpoints)
      ∧ (∀ (fname : String) (uriKeys : List String), uriKeys ≠ [] →
          find_endpoint_codegen fname uriKeys ≠ none) := by
  refine ⟨find_endpoint_eq_specResolve, ?_⟩
  intro fname uriKeys hne
  unfold find_endpoint_codegen
  cases h1 : uriKeys.find?
      (fun uri => strContains uri fname || strContains uri (kebab fname)) with
  | some u => simp
  | none =>
    cases h2 : (clientPatterns fname).find? (fun p => uriKeys.contains p) with
    | some p => simp
    | none =>
      simp only []
      cases uriKeys with
      | nil => exact absurd rfl hne
      | cons k ks => simp [List.head?]

/-- Claim C1 (witness for the amended theorem). -/
theorem C1_resolver_amended_witness :
    find_endpoint_codegen "missing_fn" ["/api/other"] ≠ none :=
  C1_resolver_amended.2 "missing_fn" ["/api/other"] (by decide)

/-- Claim C3 (counterexample): resolution is not reproducible across
runs for the codegen resolver: it iterates the keys of a `HashMap`,
whose iteration order is unspecified and varies between program runs.
Permuting the key order of the same two-endpoint map changes the result
for function `"x"`. -/
theorem C3_codegen_order_counterexample :
    List.Perm ["/api/a_x", "/api/b_x"] ["/api/b_x", "/api/a_x"]
      ∧ find_endpoint_codegen "x" ["/api/a_x", "/api/b_x"]
          ≠ find_endpoint_codegen "x" ["/api/b_x", "/api/a_x"] := by
  constructor
  · exact List.Perm.swap _ _ _
  · decide

/-- Claim C3 (amended): the runtime resolver is a pure function of the
function name and the endpoint list, so any two evaluations on
identical inputs return the same optional path; reproducibility fails
only for the codegen copy, whose result additionally depends on the
hash-map key iteration order. -/
theorem C3_runtime_resolver_deterministic (fname : String)
    (eps eps' : List EndpointDiscovery) (h : eps = eps') :
    find_endpoint_for_function fname eps
      = find_endpoint_for_function fname eps' := by
  rw [h]

/-- Claim C3 (witness). -/
theorem C3_runtime_resolver_deterministic_witness :
    find_endpoint_for_function "login" [⟨"/api/auth/login", []⟩]
      = find_endpoint_for_function "login" [⟨"/api/auth/login", []⟩] :=
  C3_runtime_resolver_deterministic "login" _ _ rfl

theorem encodeSchema_isObj (s : TypeSchema) :
    ∃ kvs, encodeSchema s = Json.obj kvs := by
  cases s <;> exact ⟨_, rfl⟩

mutual

theorem decode_encodeSchema : ∀ (s : TypeSchema),
    decodeSchema (encodeSchema s) = some s
  | .Primitive name => rfl
  | .Struct s => by
    have h : decodeSchema (encodeSchema (.Struct s))
        = (decodeStruct (encodeStruct s)).map .Struct := rfl
    rw [h, decode_encodeStruct s]
    rfl
  | .Enum e => by
    have h : decodeSchema (encodeSchema (.Enum e))
        = (decodeEnum (encodeEnum e)).map .Enum := rfl
    rw [h, decode_encodeEnum e]
    rfl
  | .Container ct inner => by
    have h : decodeSchema (encodeSchema (.Container ct inner))
        = (decodeSchema (encodeSchema inner)).map (.Container ct) := rfl
    rw [h, decode_encodeSchema inner]
    rfl
  | .Tuple elems => by
    have h : decodeSchema (encodeSchema (.Tuple elems))
        = (decodeSchemaList (encodeSchemaList elems)).map .Tuple := rfl
    rw [h, decode_encodeSchemaList elems]
    rfl
  | .Opaque name => rfl

theorem decode_encodeStruct : ∀ (s : StructSchema),
    decodeStruct (encodeStruct s) = some s
  | .mk tn fs => by
    have h : decodeStruct (encodeStruct (.mk tn fs))
        = (decodeFieldList (encodeFieldList fs)).map (.mk tn) := rfl
    rw [h, decode_encodeFieldList fs]
    rfl

theorem decode_encodeField : ∀ (f : FieldSchema),
    decodeField (encodeField f) = some f
  | .mk fn ft opt => by
    have h : decodeField (encodeField (.mk fn ft opt))
        = (decodeSchema (encodeSchema ft)).map (fun s => .mk fn s opt) := rfl
    rw [h, decode_encodeSchema ft]
    rfl

theorem decode_encodeFieldList : ∀ (l : List FieldSchema),
    decodeFieldList (encodeFieldList l) = some l
  | [] => rfl
  | f :: t => by
    have h : decodeFieldList (encodeFieldList (f :: t))
        = (decodeField (encodeField f)).bind fun x =>
            (decodeFieldList (encodeFieldList t)).map (fun xs => x :: xs) := rfl
    rw [h, decode_encodeField f, decode_encodeFieldList t]
    rfl

theorem decode_encodeEnum : ∀ (e : EnumSchema),
    decodeEnum (encodeEnum e) = some e
  | .mk tn vs => by
    have h : decodeEnum (encodeEnum (.mk tn vs))
        = (decodeVariantList (encodeVariantList vs)).map (.mk tn) := rfl
    rw [h, decode_encodeVariantList vs]
    rfl

theorem decode_encodeVariant : ∀ (v : VariantSchema),
    decodeVariant (encodeVariant v) = some v
  | .mk vn none => rfl
  | .mk vn (some s) => by
    obtain ⟨kvs, hk⟩ := encodeSchema_isObj s
    have h : decodeVariant (encodeVariant (.mk vn (some s)))
        = decodeVariant (.obj [("variant_name", .str vn),
            ("inner_schema", Json.obj kvs)]) := by
      rw [show encodeVariant (.mk vn (some s))
        = .obj [("variant_name", .str vn), ("inner_schema", encodeSchema s)]
        from rfl, hk]
    have h2 : decodeVariant (.obj [("variant_name", .str vn),
        ("inner_schema", Json.obj kvs)])
        = (decodeSchema (Json.obj kvs)).map (fun x => .mk vn (some x)) := rfl
    rw [h, h2, ← hk, decode_encodeSchema s]
    rfl

theorem decode_encodeVariantList : ∀ (l : List VariantSchema),
    decodeVariantList (encodeVariantList l) = some l
  | [] => rfl
  | v :: t => by
    have h : decodeVariantList (encodeVariantList (v :: t))
        = (decodeVariant (encodeVariant v)).bind fun x =>
            (decodeVariantList (encodeVariantList t)).map (fun xs => x :: xs) := rfl
    rw [h, decode_encodeVariant v, decode_encodeVariantList t]
    rfl

theorem decode_encodeSchemaList : ∀ (l : List TypeSchema),
    decodeSchemaList (encodeSchemaList l) = some l
  | [] => rfl
  | x :: t => by
    have h : decodeSchemaList (encodeSchemaList (x :: t))
        = (decodeSchema (encodeSchema x)).bind fun y =>
            (decodeSchemaList (encodeSchemaList t)).map (fun ys => y :: ys) := rfl
    rw [h, decode_encodeSchema x, decode_encodeSchemaList t]
    rfl

end

/-- Claim C7: serializing any `TypeSchema` value (any nesting of
`Primitive`, `Struct`, `Enum`, `Container`, `Tuple`, `Opaque`) to the
tagged wire format (tag field `"kind"`, payload field `"value"`) and
deserializing the result yields the same schema. -/
theorem C7_typeschema_roundtrip (s : TypeSchema) :
    decodeSchema (encodeSchema s) = some s :=
  decode_encodeSchema s

/-- Claim C2 (counterexample): the claim asserts that after any metadata
failure the function map is empty; but `fetch_metadata` registers
entries as it parses, so a document whose second function entry lacks
`function_name` fails while leaving the first function registered. -/
theorem C2_partial_registration_counterexample :
    (fetch_metadata ⟨⟨"localhost", 5150⟩, [], []⟩
        (.httpResponse 200 (some ⟨2,
          [ Json.obj [("function_name", .str "ping"),
              ("output_type_name", .str "String")]
          , Json.obj [] ], [], 0⟩))).2
      = .error (.InvalidParameter "Missing function_name")
    ∧ get_function_names
        ((fetch_metadata ⟨⟨"localhost", 5150⟩, [], []⟩
          (.httpResponse 200 (some ⟨2,
            [ Json.obj [("function_name", .str "ping"),
                ("output_type_name", .str "String")]
            , Json.obj [] ], [], 0⟩))).1)
      = ["ping"] :=
  ⟨rfl, rfl⟩

/-- Claim C2 (amended): `init` never returns an error — for every fetch
outcome it returns a client — and after a failure that precedes entry
processing (network error, non-2xx status, malformed JSON) the
function map and endpoint list are empty; a required-field failure
partway through entry processing instead keeps the entries already
parsed. -/
theorem C2_init_never_fails_amended (addr : ServerAddr)
    (outcome : FetchOutcome) :
    (∃ st, init addr outcome = .ok st)
      ∧ (earlyFailure outcome = true →
          init addr outcome = .ok ⟨addr, [], []⟩) :=
  by
  constructor
  · exact ⟨_, rfl⟩
  · intro h
    cases outcome with
    | networkError => rfl
    | httpResponse status parsed =>
      simp only [earlyFailure, Bool.or_eq_true, Bool.not_eq_true'] at h
      cases hs : is_success status with
      | false => simp [init, fetch_metadata, hs]
      | true =>
        rw [hs] at h
        rcases h with h | h
        · exact absurd h (by simp)
        · rw [Option.isNone_iff_eq_none] at h
          subst h
          simp [init, fetch_metadata, hs]

/-- Claim C2 (witness): a metadata fetch answered with HTTP 500 still
yields a client, with no functions and no endpoints. -/
theorem C2_init_witness :
    init ⟨"localhost", 5150⟩ (.httpResponse 500 none)
      = .ok ⟨⟨"localhost", 5150⟩, [], []⟩ :=
  (C2_init_never_fails_amended ⟨"localhost", 5150⟩
    (.httpResponse 500 none)).2 (by decide)

/-- Claim C4: `call_function` fails with `FunctionNotFound` exactly when
the name is absent from the function map or the resolver finds no
endpoint (the latter carrying the "No endpoint found for function"
detail); otherwise it delegates to `call_endpoint` with the resolved
path and the function's `is_mutation` flag. -/
theorem C4_call_function_routing (st : ClientState) (fname : String)
    (params : Option Json) :
    ((∃ msg, call_function_route st fname params
        = .error (.FunctionNotFound msg))
      ↔ (lookupFn st.functions fname = none
          ∨ find_endpoint_for_function fname st.endpoints_discovery = none))
    ∧ (lookupFn st.functions fname = none →
        call_function_route st fname params
          = .error (.FunctionNotFound fname))
    ∧ (∀ f, lookupFn st.functions fname = some f →
        find_endpoint_for_function fname st.endpoints_discovery = none →
        call_function_route st fname params
          = .error (.FunctionNotFound
              ("No endpoint found for function: " ++ fname)))
    ∧ (∀ f endpoint, lookupFn st.functions fname = some f →
        find_endpoint_for_function fname st.endpoints_discovery
          = some endpoint →
        call_function_route st fname params
          = .ok (endpoint, f.is_mutation, params)) := by
  refine ⟨?_, ?_, ?_, ?_⟩
  · constructor
    · intro ⟨msg, hmsg⟩
      by_contra hn
      push_neg at hn
      obtain ⟨h1, h2⟩ := hn
      obtain ⟨f, hf⟩ := Option.ne_none_iff_exists'.mp h1
      obtain ⟨ep, hep⟩ := Option.ne_none_iff_exists'.mp h2
      rw [call_function_route, hf, hep] at hmsg
      exact Except.noConfusion hmsg
    · intro h
      cases h with
      | inl h => exact ⟨fname, by rw [call_function_route, h]⟩
      | inr h =>
        cases hf : lookupFn st.functions fname with
        | none => exact ⟨fname, by rw [call_function_route, hf]⟩
        | some f =>
          exact ⟨"No endpoint found for function: " ++ fname,
            by rw [call_function_route, hf, h]⟩
  · intro h
    rw [call_function_route, h]
  · intro f hf hep
    rw [call_function_route, hf, hep]
  · intro f endpoint hf hep
    rw [call_function_route, hf, hep]

/-- Claim C4 (witness): with endpoints `["/api/other"]`, the known
function `"missing_fn"` resolves to no endpoint and the call fails with
`FunctionNotFound`. -/
theorem C4_call_function_routing_witness :
    call_function_route
        ⟨⟨"localhost", 5150⟩,
          [("missing_fn",
            { name := "missing_fn", is_mutation := false, is_async := false
            , input_type_name := none, output_type_name := "String"
            , params := [], input_schema_json := none
            , output_schema_json := none })],
          [⟨"/api/other", []⟩]⟩
        "missing_fn" none
      = .error (.FunctionNotFound
          "No endpoint found for function: missing_fn") := by
  have h := (C4_call_function_routing
    ⟨⟨"localhost", 5150⟩,
      [("missing_fn",
        { name := "missing_fn", is_mutation := false, is_async := false
        , input_type_name := none, output_type_name := "String"
        , params := [], input_schema_json := none
        , output_schema_json := none })],
      [⟨"/api/other", []⟩]⟩
    "missing_fn" none).2.2.1
  exact h _ rfl (by decide)

theorem isPrefixOf_append_left (l t : List Char) :
    l.isPrefixOf (l ++ t) = true := by
  induction l with
  | nil => cases t <;> rfl
  | cons c s ih => simp [List.isPrefixOf, ih]

theorem containsAux_mid (a b c : List Char) :
    containsAux (a ++ (b ++ c)) b = true := by
  induction a with
  | nil =>
    cases b with
    | nil => cases c <;> simp [containsAux, List.isPrefixOf]
    | cons y ys =>
      have h := isPrefixOf_append_left (y :: ys) c
      simp only [List.cons_append] at h
      simp [containsAux, h]
  | cons y rest ih => simp [containsAux, ih]

theorem strContains_mid (a b c : String) :
    strContains (a ++ b ++ c) b = true := by
  unfold strContains
  have hd : (a ++ b ++ c).data = a.data ++ (b.data ++ c.data) := by
    simp [String.data_append]
  rw [hd]
  exact containsAux_mid a.data b.data c.data

/-- Claim C5: a read (`is_mutation = false`) through `call_endpoint`
builds a GET request to `{base_url}/api{path}`, with no body; a JSON
object's top-level entries become the query pairs through
`stringify_value` (strings unquoted, numbers and booleans via
`to_string`, nested arrays/objects as their JSON text), and any
non-object or absent params contribute no query pairs. -/
theorem C5_read_request_encoding (addr : ServerAddr) (endpoint : String)
    (params : Option Json) :
    (call_endpoint_request addr endpoint false params).method = .get
    ∧ (call_endpoint_request addr endpoint false params).url
        = base_url addr ++ ("/api" ++ endpoint)
    ∧ (call_endpoint_request addr endpoint false params).body = none
    ∧ (∀ kvs, params = some (Json.obj kvs) →
        (call_endpoint_request addr endpoint false params).query
          = kvs.map (fun kv => (kv.1, stringify_value kv.2)))
    ∧ (params = none →
        (call_endpoint_request addr endpoint false params).query = [])
    ∧ (∀ j, params = some j → j.isObj = false →
        (call_endpoint_request addr endpoint false params).query = [])
    ∧ (∀ n, stringify_value (.num n) = toString n)
    ∧ (∀ b, stringify_value (.bool b) = (if b then "true" else "false"))
    ∧ (∀ xs, stringify_value (.arr xs) = (Json.arr xs).render)
    ∧ (∀ kvs, stringify_value (.obj kvs) = (Json.obj kvs).render) := by
  refine ⟨rfl, rfl, rfl, ?_, ?_, ?_, fun n => rfl, fun b => rfl,
    fun xs => rfl, fun kvs => rfl⟩
  · intro kvs hp
    subst hp
    cases kvs with
    | nil => rfl
    | cons kv t => rfl
  · intro hp
    subst hp
    rfl
  · intro j hp hobj
    subst hp
    cases j <;> first | rfl | exact Bool.noConfusion hobj

/-- Claim C5 (witness): `callEndpoint("/health", false,
some {"verbose": true})` yields a GET whose query contains
`verbose=true`. -/
theorem C5_read_request_encoding_witness :
    (call_endpoint_request ⟨"localhost", 5150⟩ "/health" false
        (some (Json.obj [("verbose", .bool true)]))).query
      = [("verbose", "true")] := by
  have h := (C5_read_request_encoding ⟨"localhost", 5150⟩ "/health"
    (some (Json.obj [("verbose", .bool true)]))).2.2.2.1
  rw [h [("verbose", .bool true)] rfl]
  rfl

/-- Claim C6 (counterexample): the claim says a JSON parse failure of a
2xx body yields a JSON error; in the source,
`response.json::<Value>()`'s failure is a `reqwest::Error`, which
`From<reqwest::Error>` converts to the `RequestError` variant, not to
`JsonError`. -/
theorem C6_decode_error_counterexample :
    call_endpoint_response "/health" 200 "oops" none
        = .error (.RequestError "error decoding response body")
      ∧ (match call_endpoint_response "/health" 200 "oops" none with
         | .error e => e.isJsonError
         | .ok _ => false) = false :=
  ⟨rfl, rfl⟩

/-- Claim C6 (amended): a non-2xx response fails with `ServerError`
whose message contains both the status code and the body text; a 2xx
body parsed as JSON is returned verbatim; a 2xx body that fails to
parse yields the transport-error variant (`RequestError`, via
`From<reqwest::Error>`), not the `JsonError` variant. -/
theorem C6_response_handling_amended (endpoint : String) (status : Nat)
    (bodyText : String) (bodyJson : Option Json) :
    (is_success status = false →
      ∃ msg, call_endpoint_response endpoint status bodyText bodyJson
          = .error (.ServerError msg)
        ∧ strContains msg (toString status) = true
        ∧ strContains msg bodyText = true)
    ∧ (∀ v, is_success status = true → bodyJson = some v →
        call_endpoint_response endpoint status bodyText bodyJson = .ok v)
    ∧ (is_success status = true → bodyJson = none →
        call_endpoint_response endpoint status bodyText bodyJson
          = .error (.RequestError "error decoding response body")) := by
  refine ⟨?_, ?_, ?_⟩
  · intro hs
    refine ⟨"Endpoint " ++ endpoint ++ " failed with status "
      ++ toString status ++ ": " ++ bodyText, ?_, ?_, ?_⟩
    · unfold call_endpoint_response
      rw [hs]
      rfl
    · have h : "Endpoint " ++ endpoint ++ " failed with status "
          ++ toString status ++ ": " ++ bodyText
          = ("Endpoint " ++ endpoint ++ " failed with status ")
            ++ toString status ++ (": " ++ bodyText) := by
        apply String.ext
        simp [String.data_append]
      rw [h]
      exact strContains_mid _ _ _
    · exact strContains_suffix _ _
  · intro v hs hb
    unfold call_endpoint_response
    rw [hs, hb]
    rfl
  · intro hs hb
    unfold call_endpoint_response
    rw [hs, hb]
    rfl

/-- Claim C6 (witness): HTTP 404 with body `"not found"` fails with a
`ServerError` containing both the status code and the body text. -/
theorem C6_response_handling_witness :
    ∃ msg, call_endpoint_response "/health" 404 "not found" none
        = .error (.ServerError msg)
      ∧ strContains msg (toString 404) = true
      ∧ strContains msg "not found" = true :=
  (C6_response_handling_amended "/health" 404 "not found" none).1 (by decide)

/-- Claim C10 (counterexample): the claim says only a *missing* field
invalidates the document; but a `function_name` that is present with a
non-string value (here the number 42) also aborts parsing with the same
`InvalidParameter` error. -/
theorem C10_present_nonstring_counterexample :
    ((Json.obj [("function_name", Json.num 42),
        ("output_type_name", Json.str "T")]).get? "function_name").isSome
      = true
    ∧ (fetch_metadata ⟨⟨"localhost", 5150⟩, [], []⟩
        (.httpResponse 200 (some ⟨1,
          [Json.obj [("function_name", Json.num 42),
            ("output_type_name", Json.str "T")]], [], 0⟩))).2
      = .error (.InvalidParameter "Missing function_name") :=
  ⟨rfl, rfl⟩

/-- Claim C10 (amended): a function entry with a missing or non-boolean
`is_mutation` / `is_async` is still registered, with both flags
defaulting to `false`; and an entry is invalid exactly when its
`function_name` or `output_type_name` (for functions), or its `uri` or
`methods` (for endpoints), is missing *or of the wrong type* (a
non-string name/uri, a non-array methods). -/
theorem C10_metadata_field_requirements_amended :
    (∀ fv name outName,
        (fv.index "function_name").asStr = some name →
        (fv.index "output_type_name").asStr = some outName →
        (fv.index "is_mutation").asBool = none →
        (fv.index "is_async").asBool = none →
        ∃ f, parseFunction fv = .ok f ∧ f.is_mutation = false
          ∧ f.is_async = false ∧ f.name = name
          ∧ processFunctions [] [fv] = ([(name, f)], .ok ()))
    ∧ (∀ fv, (∃ e, parseFunction fv = .error e)
        ↔ ((fv.index "function_name").asStr = none
            ∨ (fv.index "output_type_name").asStr = none))
    ∧ (∀ ev, (∃ e, parseEndpoint ev = .error e)
        ↔ ((ev.index "uri").asStr = none
            ∨ (ev.index "methods").asArray = none)) := by
  refine ⟨?_, ?_, ?_⟩
  · intro fv name outName h1 h2 h3 h4
    refine ⟨{ name := name, is_mutation := false, is_async := false
              , input_type_name := (fv.index "input_type_name").asStr
              , output_type_name := outName
              , params := [fv.index "params"]
              , input_schema_json := (fv.index "input_schema_json").asStr
              , output_schema_json := (fv.index "output_schema_json").asStr },
      ?_, rfl, rfl, rfl, ?_⟩
    · simp [parseFunction, h1, h2, h3, h4]
    · simp [processFunctions, parseFunction, h1, h2, h3, h4, insertFn]
  · intro fv
    constructor
    · rintro ⟨e, he⟩
      by_contra hn
      push_neg at hn
      obtain ⟨hf, ho⟩ := hn
      obtain ⟨name, hname⟩ := Option.ne_none_iff_exists'.mp hf
      obtain ⟨outName, hout⟩ := Option.ne_none_iff_exists'.mp ho
      rw [parseFunction, hname, hout] at he
      exact Except.noConfusion he
    · rintro (h | h)
      · exact ⟨.InvalidParameter "Missing function_name",
          by rw [parseFunction, h]⟩
      · cases hfn : (fv.index "function_name").asStr with
        | none => exact ⟨.InvalidParameter "Missing function_name",
            by rw [parseFunction, hfn]⟩
        | some name => exact ⟨.InvalidParameter "Missing output_type_name",
            by rw [parseFunction, hfn, h]⟩
  · intro ev
    constructor
    · rintro ⟨e, he⟩
      by_contra hn
      push_neg at hn
      obtain ⟨hu, hm⟩ := hn
      obtain ⟨uri, huri⟩ := Option.ne_none_iff_exists'.mp hu
      obtain ⟨arr, harr⟩ := Option.ne_none_iff_exists'.mp hm
      rw [parseEndpoint, huri, harr] at he
      exact Except.noConfusion he
    · rintro (h | h)
      · exact ⟨.InvalidParameter "Missing endpoint uri",
          by rw [parseEndpoint, h]⟩
      · cases hu : (ev.index "uri").asStr with
        | none => exact ⟨.InvalidParameter "Missing endpoint uri",
            by rw [parseEndpoint, hu]⟩
        | some uri => exact ⟨.InvalidParameter "Missing endpoint methods",
            by rw [parseEndpoint, hu, h]⟩

/-- Claim C10 (witness): a function entry carrying only `function_name`
and `output_type_name` parses, with `is_mutation = is_async = false`,
and is registered. -/
theorem C10_metadata_field_requirements_witness :
    ∃ f, parseFunction (Json.obj [("function_name", .str "ping"),
          ("output_type_name", .str "T")]) = .ok f
      ∧ f.is_mutation = false ∧ f.is_async = false ∧ f.name = "ping"
      ∧ processFunctions [] [Json.obj [("function_name", .str "ping"),
          ("output_type_name", .str "T")]] = ([("ping", f)], .ok ()) :=
  C10_metadata_field_requirements_amended.1
    (Json.obj [("function_name", .str "ping"), ("output_type_name", .str "T")])
    "ping" "T" rfl rfl rfl rfl

theorem find?_isSome_iff_mem_keys {l : List (String × String)} {k : String} :
    (l.find? (fun kv => kv.1 = k)).isSome = true ↔ k ∈ l.map Prod.fst := by
  rw [List.find?_isSome]
  constructor
  · rintro ⟨kv, hmem, hkv⟩
    rw [decide_eq_true_iff] at hkv
    exact hkv ▸ List.mem_map_of_mem _ hmem
  · intro hk
    obtain ⟨kv, hmem, hfst⟩ := List.mem_map.mp hk
    exact ⟨kv, hmem, by rw [decide_eq_true_iff]; exact hfst⟩

theorem insertTypeIfNew_keys_mono {types : List (String × String)}
    {k : String} (name text : String) (h : k ∈ types.map Prod.fst) :
    k ∈ (insertTypeIfNew types name text).map Prod.fst := by
  unfold insertTypeIfNew
  split
  · rw [List.map_append]
    exact List.mem_append_left _ h
  · exact h

theorem insertTypeIfNew_mem {name : String}
    (types : List (String × String)) (text : String) (hn : name ≠ "") :
    name ∈ (insertTypeIfNew types name text).map Prod.fst := by
  unfold insertTypeIfNew
  split
  next =>
    rw [List.map_append]
    exact List.mem_append_right _ (by simp)
  next hcond =>
    rw [not_and] at hcond
    have h1 := hcond hn
    have h2 : (types.find? (fun kv => kv.1 = name)).isSome = true := by
      rw [Option.isSome_iff_ne_none]
      intro hnone
      exact h1 (by rw [hnone]; rfl)
    exact find?_isSome_iff_mem_keys.mp h2

theorem insertTypeIfNew_keys_nodup {types : List (String × String)}
    (name text : String) (h : (types.map Prod.fst).Nodup) :
    ((insertTypeIfNew types name text).map Prod.fst).Nodup := by
  unfold insertTypeIfNew
  split
  next hcond =>
    rw [List.map_append, List.nodup_append]
    refine ⟨h, List.nodup_singleton _, ?_⟩
    intro a ha hb
    simp only [List.map_cons, List.map_nil, List.mem_singleton] at hb
    subst hb
    have hnone : types.find? (fun kv => kv.1 = a) = none :=
      Option.isNone_iff_eq_none.mp hcond.2
    have hns : ¬ (types.find? (fun kv => kv.1 = a)).isSome = true := by
      simp [hnone]
    exact hns (find?_isSome_iff_mem_keys.mpr ha)
  next => exact h

theorem collectTypesStep_keys_mono (parse : String → Option Json)
    (types : List (String × String)) (func : Json) {k : String}
    (h : k ∈ types.map Prod.fst) :
    k ∈ (collectTypesStep parse types func).map Prod.fst := by
  unfold collectTypesStep
  split
  · split
    · exact insertTypeIfNew_keys_mono _ _ (insertTypeIfNew_keys_mono _ _ h)
    · exact insertTypeIfNew_keys_mono _ _ h
  · exact h

theorem collectTypesStep_keys_nodup (parse : String → Option Json)
    (types : List (String × String)) (func : Json)
    (h : (types.map Prod.fst).Nodup) :
    ((collectTypesStep parse types func).map Prod.fst).Nodup := by
  unfold collectTypesStep
  split
  · split
    · exact insertTypeIfNew_keys_nodup _ _ (insertTypeIfNew_keys_nodup _ _ h)
    · exact insertTypeIfNew_keys_nodup _ _ h
  · exact h

theorem collectTypesStep_output_mem (parse : String → Option Json)
    (types : List (String × String)) (func : Json) {N : String}
    (hfn : ((func.index "function_name").asStr).isSome = true)
    (hout : (func.index "output_type_name").asStr = some N) (hN : N ≠ "") :
    N ∈ (collectTypesStep parse types func).map Prod.fst := by
  obtain ⟨nm, hnm⟩ := Option.isSome_iff_exists.mp hfn
  unfold collectTypesStep
  rw [hnm, hout]
  exact insertTypeIfNew_mem _ _ hN

theorem collectTypes_go_nodup (parse : String → Option Json)
    (funcs : List Json) :
    ∀ types, (types.map Prod.fst).Nodup →
      ((funcs.foldl (collectTypesStep parse) types).map Prod.fst).Nodup := by
  induction funcs with
  | nil => intro types h; exact h
  | cons f t ih =>
    intro types h
    exact ih _ (collectTypesStep_keys_nodup parse types f h)

theorem collectTypes_go_mem (parse : String → Option Json)
    (funcs : List Json) :
    ∀ types (k : String), k ∈ types.map Prod.fst →
      k ∈ (funcs.foldl (collectTypesStep parse) types).map Prod.fst := by
  induction funcs with
  | nil => intro types k h; exact h
  | cons f t ih =>
    intro types k h
    exact ih _ k (collectTypesStep_keys_mono parse types f h)

theorem collectTypes_go_mem_of_func (parse : String → Option Json)
    (funcs : List Json) :
    ∀ types func, func ∈ funcs →
      ∀ N, ((func.index "function_name").asStr).isSome = true →
        (func.index "output_type_name").asStr = some N → N ≠ "" →
        N ∈ (funcs.foldl (collectTypesStep parse) types).map Prod.fst := by
  induction funcs with
  | nil => intro types func h; exact absurd h (List.not_mem_nil func)
  | cons g t ih =>
    intro types func hmem N hfn hout hN
    rcases List.mem_cons.mp hmem with hg | ht
    · subst hg
      exact collectTypes_go_mem parse t _ N
        (collectTypesStep_output_mem parse types func hfn hout hN)
    · exact ih _ func ht N hfn hout hN

/-- Claim C8: across one generation run, the collected type map of
`generate_dynamic_typed_client` has pairwise distinct keys, so each type
name is defined at most once in the output; and any type name appearing
as the (non-empty) `output_type_name` of some processed function —
in particular one shared by several functions — has exactly one
definition. -/
theorem C8_type_dedup (parse : String → Option Json) (funcs : List Json) :
    ((collectTypes parse funcs).map Prod.fst).Nodup
    ∧ (∀ func, func ∈ funcs →
        ∀ N, ((func.index "function_name").asStr).isSome = true →
          (func.index "output_type_name").asStr = some N → N ≠ "" →
          ((collectTypes parse funcs).map Prod.fst).count N = 1) := by
  constructor
  · exact collectTypes_go_nodup parse funcs [] List.nodup_nil
  · intro func hmem N hfn hout hN
    have hmem2 : N ∈ (collectTypes parse funcs).map Prod.fst :=
      collectTypes_go_mem_of_func parse funcs [] func hmem N hfn hout hN
    have hnd : ((collectTypes parse funcs).map Prod.fst).Nodup :=
      collectTypes_go_nodup parse funcs [] List.nodup_nil
    exact List.count_eq_one_of_mem hnd hmem2

/-- Claim C8 (witness): two functions sharing
`output_type_name = "AuthResponse"` yield exactly one definition for
that name. -/
theorem C8_type_dedup_witness :
    ((collectTypes (fun _ => none)
        [ Json.obj [("function_name", .str "login"),
            ("output_type_name", .str "AuthResponse")]
        , Json.obj [("function_name", .str "register"),
            ("output_type_name", .str "AuthResponse")] ]).map
      Prod.fst).count "AuthResponse" = 1 :=
  (C8_type_dedup (fun _ => none)
    [ Json.obj [("function_name", .str "login"),
        ("output_type_name", .str "AuthResponse")]
    , Json.obj [("function_name", .str "register"),
        ("output_type_name", .str "AuthResponse")] ]).2
    (Json.obj [("function_name", .str "login"),
      ("output_type_name", .str "AuthResponse")])
    (List.mem_cons_self _ _) "AuthResponse" rfl rfl (by decide)

theorem generate_primitive_eval (name v : String) :
    generate_primitive_type_from_schema name
        (Json.obj [("kind", Json.str "Primitive"), ("value", Json.str v)])
      = (if v = name then ""
         else if v = "String" then
           (if name = "String" then "" else newtypeText name "String")
         else if v = "i32" then newtypeText name "i32"
         else if v = "i64" then newtypeText name "i64"
         else if v = "bool" then newtypeText name "bool"
         else generate_basic_type name) := rfl

theorem generate_type_primitive_eval (name v : String)
    (hn : name ∉ builtinNames) :
    generate_type_from_schema name (some (encodeSchema (.Primitive v)))
      = generate_primitive_type_from_schema name
          (Json.obj [("kind", Json.str "Primitive"), ("value", Json.str v)]) := by
  unfold generate_type_from_schema
  rw [if_neg hn]
  rfl

/-- Claim C9 (counterexample): the claim includes `f32` and `f64` among
the built-ins wrapped by a newtype, but the source match in
`generate_primitive_type_from_schema` has no `f32`/`f64` arm, so a
custom name declared as `Primitive("f32")` degrades to the untyped
`serde_json::Value` wrapper instead of a newtype around `f32`. -/
theorem C9_float_newtype_counterexample :
    generate_type_from_schema "Temp" (some (encodeSchema (.Primitive "f32")))
        = generate_basic_type "Temp"
      ∧ generate_type_from_schema "Temp"
          (some (encodeSchema (.Primitive "f32")))
        ≠ newtypeText "Temp" "f32" := by
  constructor
  · rfl
  · decide

/-- Claim C9 (amended): a canonical built-in primitive name (`String`,
`i32`, `i64`, `bool`, `f32`, `f64`) is never given a generated
definition; a non-built-in name whose schema is `Primitive(v)` with `v`
one of `String`, `i32`, `i64`, `bool` becomes a newtype wrapper around
that built-in; declared values `f32` and `f64` instead degrade to the
untyped-JSON wrapper. -/
theorem C9_primitive_mapping_amended :
    (∀ name schema, name ∈ builtinNames →
        generate_type_from_schema name schema = "")
    ∧ (∀ name v, name ∉ builtinNames →
        v ∈ ["String", "i32", "i64", "bool"] →
        generate_type_from_schema name (some (encodeSchema (.Primitive v)))
          = newtypeText name v)
    ∧ (∀ name v, name ∉ builtinNames → v ∈ ["f32", "f64"] →
        generate_type_from_schema name (some (encodeSchema (.Primitive v)))
          = generate_basic_type name) := by
  refine ⟨?_, ?_, ?_⟩
  · intro name schema h
    unfold generate_type_from_schema
    rw [if_pos h]
  · intro name v hn hv
    have hmm : v = "String" ∨ v = "i32" ∨ v = "i64" ∨ v = "bool" := by
      simpa using hv
    rw [generate_type_primitive_eval name v hn]
    have hgp := generate_primitive_eval name v
    rcases hmm with h | h | h | h <;> subst h
    · have h1 : ("String" : String) ≠ name := fun he => hn (he ▸ by decide)
      have h2 : name ≠ "String" := fun he => hn (he ▸ by decide)
      rw [hgp, if_neg h1, if_pos rfl, if_neg h2]
    · have h1 : ("i32" : String) ≠ name := fun he => hn (he ▸ by decide)
      rw [hgp, if_neg h1, if_neg (by decide), if_pos rfl]
    · have h1 : ("i64" : String) ≠ name := fun he => hn (he ▸ by decide)
      rw [hgp, if_neg h1, if_neg (by decide), if_neg (by decide), if_pos rfl]
    · have h1 : ("bool" : String) ≠ name := fun he => hn (he ▸ by decide)
      rw [hgp, if_neg h1, if_neg (by decide), if_neg (by decide),
        if_neg (by decide), if_pos rfl]
  · intro name v hn hv
    have hmm : v = "f32" ∨ v = "f64" := by simpa using hv
    rw [generate_type_primitive_eval name v hn]
    have hgp := generate_primitive_eval name v
    rcases hmm with h | h <;> subst h
    · have h1 : ("f32" : String) ≠ name := fun he => hn (he ▸ by decide)
      rw [hgp, if_neg h1, if_neg (by decide), if_neg (by decide),
        if_neg (by decide), if_neg (by decide)]
    · have h1 : ("f64" : String) ≠ name := fun he => hn (he ▸ by decide)
      rw [hgp, if_neg h1, if_neg (by decide), if_neg (by decide),
        if_neg (by decide), if_neg (by decide)]

/-- Claim C9 (witness): the name `UserId` declared as `Primitive("i64")`
becomes `pub struct UserId(pub i64);`, and the built-in name `i64`
itself is never defined. -/
theorem C9_primitive_mapping_witness :
    generate_type_from_schema "UserId" (some (encodeSchema (.Primitive "i64")))
        = newtypeText "UserId" "i64"
      ∧ generate_type_from_schema "i64"
          (some (encodeSchema (.Primitive "i64"))) = "" :=
  ⟨C9_primitive_mapping_amended.2.1 "UserId" "i64" (by decide) (by decide),
   C9_primitive_mapping_amended.1 "i64" _ (by decide)⟩

end Laz
